import Mathlib

/-!
Verification of the `Escrow` record overlay of this repository, embedded from
`src/state.rs` and `src/instructions/helpers.rs`.

The program is a Solana escrow written against the `pinocchio` SDK.  Its core
is a fixed-layout record overlaid on a raw account-data byte buffer:
`Escrow::LEN` gives the expected length, `Escrow::load` / `Escrow::load_mut`
validate the buffer length and reinterpret the buffer as the record
(zero-copy), and per-field setters plus the bulk `set_inner` assign fields.

Modelling choices, justified by the source and the target platform:

* A buffer is a `List Nat` of bytes.  The typed view returned by `load` /
  `load_mut` aliases the buffer in the source (a reinterpreting pointer cast),
  so the handle is modelled as the buffer itself.
* Field reads and writes go through the explicit byte offsets that
  `#[repr(C)]` assigns to the declared fields of `Escrow`
  (`seed: u64, maker: Pubkey, mint_a: Pubkey, mint_b: Pubkey, receive: u64,
  bump: [u8; 1]`, with `Pubkey = [u8; 32]`): offsets 0, 8, 40, 72, 104, 112.
  These offsets are themselves derived below from the C layout algorithm
  applied to the declared field sizes and alignments.
* Solana SBF (like x86-64) is little-endian, so the `u64` fields `seed` and
  `receive` occupy 8 little-endian bytes.
* `ProgramError` is the pinocchio error enumeration; the only variant this
  code produces is `InvalidAccountData`, on a length mismatch.
-/

/-- Subset of pinocchio's `ProgramError` enumeration.  `Escrow::load` and
`Escrow::load_mut` only ever produce `InvalidAccountData`; this is the
surfacing of the size-mismatch condition. -/
inductive ProgramError where
  | InvalidArgument
  | InvalidInstructionData
  | InvalidAccountData
  | Custom (code : Nat)
  deriving DecidableEq, Repr

/-- Little-endian encoding of `v` into `w` bytes: the in-memory layout of the
`u64` fields of `Escrow` on the little-endian Solana SBF target. -/
def leBytes : Nat → Nat → List Nat
  | 0, _ => []
  | w + 1, v => v % 256 :: leBytes w (v / 256)

/-- Little-endian decoding of a byte list back to a natural number: the value
read when the program accesses a `u64` field of the overlaid record. -/
def leFromBytes : List Nat → Nat
  | [] => 0
  | b :: bs => b + 256 * leFromBytes bs

/-- The bytes `[off, off + len)` of a buffer. -/
def byteSlice (b : List Nat) (off len : Nat) : List Nat := (b.drop off).take len

/-- Overwrite the bytes of `b` at `[off, off + d.length)` with `d`: the
effect of one field assignment through the mutable overlay. -/
def writeAt (b : List Nat) (off : Nat) (d : List Nat) : List Nat :=
  b.take off ++ d ++ b.drop (off + d.length)

namespace Escrow

/-- Size in bytes of `u64` (`core::mem::size_of::<u64>()`). -/
def size_of_u64 : Nat := 8

/-- Size in bytes of `Pubkey = [u8; 32]` (`core::mem::size_of::<Pubkey>()`). -/
def size_of_pubkey : Nat := 32

/-- Size in bytes of `[u8; 1]` (`core::mem::size_of::<[u8; 1]>()`). -/
def size_of_u8x1 : Nat := 1

/-- `Escrow::LEN` from `helpers.rs`: the sum of the sizes of the six declared
fields, in declaration order. -/
def LEN : Nat :=
  size_of_u64 + size_of_pubkey + size_of_pubkey + size_of_pubkey
    + size_of_u64 + size_of_u8x1

/-- `Escrow::load` from `helpers.rs`: checks `bytes.len() != Escrow::LEN` and
on failure returns `ProgramError::InvalidAccountData`; on success it
reinterprets the buffer as the record, here the buffer itself (zero-copy). -/
def load (bytes : List Nat) : Except ProgramError (List Nat) :=
  if bytes.length = LEN then .ok bytes else .error .InvalidAccountData

/-- `Escrow::load_mut` from `helpers.rs`: same length check as `load`; the
first component is the returned mutable handle (again the buffer itself,
zero-copy), the second is the buffer as the call leaves it — the body of
`load_mut` performs no writes, so it is the input buffer. -/
def load_mut (bytes : List Nat) : Except ProgramError (List Nat) × List Nat :=
  if bytes.length = LEN then (.ok bytes, bytes)
  else (.error .InvalidAccountData, bytes)

/-- Stored bytes of the `seed` field: offset 0, width 8. -/
def seed_bytes (b : List Nat) : List Nat := byteSlice b 0 8

/-- Stored bytes of the `maker` field: offset 8, width 32. -/
def maker_bytes (b : List Nat) : List Nat := byteSlice b 8 32

/-- Stored bytes of the `mint_a` field: offset 40, width 32. -/
def mint_a_bytes (b : List Nat) : List Nat := byteSlice b 40 32

/-- Stored bytes of the `mint_b` field: offset 72, width 32. -/
def mint_b_bytes (b : List Nat) : List Nat := byteSlice b 72 32

/-- Stored bytes of the `receive` field: offset 104, width 8. -/
def receive_bytes (b : List Nat) : List Nat := byteSlice b 104 8

/-- Stored bytes of the `bump` field: offset 112, width 1. -/
def bump_bytes (b : List Nat) : List Nat := byteSlice b 112 1

/-- Reading the `seed` field through the overlay: little-endian `u64` at
offset 0. -/
def seed (b : List Nat) : Nat := leFromBytes ( seed_bytes b)

/-- Reading the `maker` field through the overlay: the 32 bytes at offset 8. -/
def maker (b : List Nat) : List Nat := maker_bytes b

/-- Reading the `mint_a` field through the overlay: the 32 bytes at
offset 40. -/
def mint_a (b : List Nat) : List Nat := mint_a_bytes b

/-- Reading the `mint_b` field through the overlay: the 32 bytes at
offset 72. -/
def mint_b (b : List Nat) : List Nat := mint_b_bytes b

/-- Reading the `receive` field through the overlay: little-endian `u64` at
offset 104. -/
def receive (b : List Nat) : Nat := leFromBytes (receive_bytes b)

/-- Reading the `bump` field through the overlay: the 1 byte at offset 112. -/
def bump (b : List Nat) : List Nat := bump_bytes b

/-- `Escrow::set_seed`: `self.seed = seed`, a `u64` store at offset 0. -/
def set_seed (b : List Nat) (s : Nat) : List Nat := writeAt b 0 (leBytes 8 s)

/-- `Escrow::set_maker`: `self.maker = maker`, a 32-byte store at offset 8. -/
def set_maker (b m : List Nat) : List Nat := writeAt b 8 m

/-- `Escrow::set_mint_a`: `self.mint_a = mint_a`, a 32-byte store at
offset 40. -/
def set_mint_a (b a : List Nat) : List Nat := writeAt b 40 a

/-- `Escrow::set_mint_b`: `self.mint_b = mint_b`, a 32-byte store at
offset 72. -/
def set_mint_b (b v : List Nat) : List Nat := writeAt b 72 v

/-- `Escrow::set_receive`: `self.receive = receive`, a `u64` store at
offset 104. -/
def set_receive (b : List Nat) (r : Nat) : List Nat :=
  writeAt b 104 (leBytes 8 r)

/-- `Escrow::set_bump`: `self.bump = bump`, a 1-byte store at offset 112. -/
def set_bump (b bp : List Nat) : List Nat := writeAt b 112 bp

/-- `Escrow::set_inner`: the six field assignments of its body, in source
order (`seed`, `maker`, `mint_a`, `mint_b`, `receive`, `bump`). -/
def set_inner (b : List Nat) (s : Nat) (m a v : List Nat) (r : Nat)
    (bp : List Nat) : List Nat :=
  writeAt (writeAt (writeAt (writeAt (writeAt (writeAt
    b 0 (leBytes 8 s)) 8 m) 40 a) 72 v) 104 (leBytes 8 r)) 112 bp

end Escrow

/-- One field of a `#[repr(C)]` struct: its size and alignment in bytes. -/
structure CField where
  size : Nat
  align : Nat
  deriving DecidableEq, Repr

/-- Round `off` up to the next multiple of `a`. -/
def alignUp (off a : Nat) : Nat := (off + a - 1) / a * a

/-- Offsets the C struct layout algorithm (the layout `#[repr(C)]` mandates)
assigns to a field list, starting from offset `off`: each field is placed at
the current offset rounded up to the field's alignment. -/
def cOffsets : Nat → List CField → List Nat
  | _, [] => []
  | off, f :: fs => alignUp off f.align :: cOffsets (alignUp off f.align + f.size) fs

/-- Offset just past the last field under the C layout algorithm. -/
def cFieldsEnd : Nat → List CField → Nat
  | off, [] => off
  | off, f :: fs => cFieldsEnd (alignUp off f.align + f.size) fs

/-- Alignment of a C struct: the maximum alignment of its fields. -/
def cStructAlign (fs : List CField) : Nat := fs.foldr (fun f a => max f.align a) 1

/-- Size of a C struct: the end of its last field rounded up to the struct
alignment (the trailing padding `#[repr(C)]` mandates). -/
def cSizeOf (fs : List CField) : Nat := alignUp (cFieldsEnd 0 fs) (cStructAlign fs)

/-- The declared fields of `Escrow` from `src/state.rs`, in order, with the
size and alignment each has on the Solana SBF / x86-64 target: `seed: u64`
(8, 8), `maker mint_a mint_b: Pubkey = [u8; 32]` (32, 1), `receive: u64`
(8, 8), `bump: [u8; 1]` (1, 1). -/
def escrowFields : List CField :=
  [⟨8, 8⟩, ⟨32, 1⟩, ⟨32, 1⟩, ⟨32, 1⟩, ⟨8, 8⟩, ⟨1, 1⟩]

/-- The field offsets of the `#[repr(C)]` struct `Escrow`. -/
def escrowOffsets : List Nat := cOffsets 0 escrowFields

/-- The in-memory size of the `#[repr(C)]` struct `Escrow`
(`core::mem::size_of::<Escrow>()`). -/
def escrowSizeOf : Nat := cSizeOf escrowFields

/-- The sum of the declared field widths of `Escrow`. -/
def escrowFieldWidthSum : Nat := (escrowFields.map CField.size).sum

/-- Length of the little-endian encoding. -/
theorem leBytes_length (w v : Nat) : (leBytes w v).length = w := by
  induction w generalizing v with
  | zero => rfl
  | succ w ih => simp [leBytes, ih]

/-- Decoding the `w`-byte little-endian encoding of `v` recovers `v` modulo
`256 ^ w`. -/
theorem leFromBytes_leBytes (w v : Nat) :
    leFromBytes (leBytes w v) = v % 256 ^ w := by
  induction w generalizing v with
  | zero => simp [leBytes, leFromBytes, Nat.mod_one]
  | succ w ih =>
    have h : (256 : Nat) ^ (w + 1) = 256 * 256 ^ w := by ring
    rw [leBytes, leFromBytes, ih, h, Nat.mod_mul]

/-- An in-bounds write preserves the buffer length. -/
theorem writeAt_length (b d : List Nat) (off : Nat)
    (h : off + d.length ≤ b.length) : (writeAt b off d).length = b.length := by
  simp only [writeAt, List.length_append, List.length_take, List.length_drop]
  omega

/-- Elementwise description of an in-bounds write: inside the written range
the data is read back, outside it the original buffer shows through. -/
theorem writeAt_getElem (b d : List Nat) (off i : Nat)
    (h : off + d.length ≤ b.length) :
    (writeAt b off d)[i]? =
      if off ≤ i ∧ i < off + d.length then d[i - off]? else b[i]? := by
  have hoff : off ≤ b.length := by omega
  have htk : (b.take off).length = off := by simp; omega
  by_cases h1 : i < off
  · rw [if_neg (by omega)]
    rw [writeAt, List.append_assoc, List.getElem?_append_left (by omega : i < (b.take off).length)]
    rw [List.getElem?_take, if_pos h1]
  · by_cases h2 : i < off + d.length
    · rw [if_pos ⟨by omega, h2⟩]
      rw [writeAt, List.append_assoc, List.getElem?_append_right (by omega : (b.take off).length ≤ i)]
      rw [htk, List.getElem?_append_left (by omega : i - off < d.length)]
    · rw [if_neg (by omega)]
      rw [writeAt, List.append_assoc, List.getElem?_append_right (by omega : (b.take off).length ≤ i)]
      rw [htk, List.getElem?_append_right (by omega : d.length ≤ i - off)]
      rw [List.getElem?_drop]
      congr 1
      omega

/-- Elementwise description of a byte slice. -/
theorem byteSlice_getElem (b : List Nat) (off len i : Nat) :
    (byteSlice b off len)[i]? = if i < len then b[off + i]? else none := by
  rw [byteSlice, List.getElem?_take]
  by_cases h : i < len
  · rw [if_pos h, if_pos h, List.getElem?_drop]
  · rw [if_neg h, if_neg h]

/-- Frame property of a write: a byte slice disjoint from the written range
is unchanged. -/
theorem byteSlice_writeAt_disjoint (b d : List Nat) (off o2 l2 : Nat)
    (hb : off + d.length ≤ b.length)
    (h : o2 + l2 ≤ off ∨ off + d.length ≤ o2) :
    byteSlice (writeAt b off d) o2 l2 = byteSlice b o2 l2 := by
  apply List.ext_getElem?
  intro i
  rw [byteSlice_getElem, byteSlice_getElem]
  by_cases hi : i < l2
  · rw [if_pos hi, if_pos hi, writeAt_getElem b d off (o2 + i) hb,
      if_neg (by omega)]
  · rw [if_neg hi, if_neg hi]

/-- Reading back the written range of a write returns the written data. -/
theorem byteSlice_writeAt_self (b d : List Nat) (off : Nat)
    (hb : off + d.length ≤ b.length) :
    byteSlice (writeAt b off d) off d.length = d := by
  apply List.ext_getElem?
  intro i
  rw [byteSlice_getElem]
  by_cases hi : i < d.length
  · rw [if_pos hi, writeAt_getElem b d off (off + i) hb, if_pos (by omega)]
    congr 1
    omega
  · rw [if_neg hi, eq_comm]
    exact List.getElem?_eq_none (by omega)

/-- Two consecutive writes of equal width at the same offset: the second one
wins. -/
theorem writeAt_writeAt (b d e : List Nat) (off : Nat)
    (hb : off + d.length ≤ b.length) (hde : e.length = d.length) :
    writeAt (writeAt b off d) off e = writeAt b off e := by
  have hlen : (writeAt b off d).length = b.length := writeAt_length b d off hb
  apply List.ext_getElem?
  intro i
  rw [writeAt_getElem _ e off i (by omega), writeAt_getElem b e off i (by omega)]
  by_cases hi : off ≤ i ∧ i < off + e.length
  · rw [if_pos hi, if_pos hi]
  · rw [if_neg hi, if_neg hi, writeAt_getElem b d off i hb, if_neg (by omega)]

/-- `Escrow::LEN` evaluates to 113 (helper used throughout). -/
theorem escrow_len_val : Escrow.LEN = 113 := rfl

/-- Length and per-field byte content of a buffer produced by
`Escrow::set_inner` on a 113-byte buffer with width-correct field values. -/
theorem set_inner_spec (b m a v bp : List Nat) (s r : Nat)
    (hb : b.length = 113) (hm : m.length = 32) (ha : a.length = 32)
    (hv : v.length = 32) (hbp : bp.length = 1) :
    (Escrow.set_inner b s m a v r bp).length = 113
  ∧ byteSlice (Escrow.set_inner b s m a v r bp) 0 8 = leBytes 8 s
  ∧ byteSlice (Escrow.set_inner b s m a v r bp) 8 32 = m
  ∧ byteSlice (Escrow.set_inner b s m a v r bp) 40 32 = a
  ∧ byteSlice (Escrow.set_inner b s m a v r bp) 72 32 = v
  ∧ byteSlice (Escrow.set_inner b s m a v r bp) 104 8 = leBytes 8 r
  ∧ byteSlice (Escrow.set_inner b s m a v r bp) 112 1 = bp := by
  have e1 : (leBytes 8 s).length = 8 := leBytes_length 8 s
  have e2 : (leBytes 8 r).length = 8 := leBytes_length 8 r
  unfold Escrow.set_inner
  set B1 := writeAt b 0 (leBytes 8 s) with hB1
  set B2 := writeAt B1 8 m with hB2
  set B3 := writeAt B2 40 a with hB3
  set B4 := writeAt B3 72 v with hB4
  set B5 := writeAt B4 104 (leBytes 8 r) with hB5
  have L1 : B1.length = 113 := by
    rw [hB1, writeAt_length b (leBytes 8 s) 0 (by omega)]; exact hb
  have L2 : B2.length = 113 := by
    rw [hB2, writeAt_length B1 m 8 (by omega)]; exact L1
  have L3 : B3.length = 113 := by
    rw [hB3, writeAt_length B2 a 40 (by omega)]; exact L2
  have L4 : B4.length = 113 := by
    rw [hB4, writeAt_length B3 v 72 (by omega)]; exact L3
  have L5 : B5.length = 113 := by
    rw [hB5, writeAt_length B4 (leBytes 8 r) 104 (by omega)]; exact L4
  refine ⟨?_, ?_, ?_, ?_, ?_, ?_, ?_⟩
  · rw [writeAt_length B5 bp 112 (by omega)]; exact L5
  · rw [byteSlice_writeAt_disjoint B5 bp 112 0 8 (by omega) (Or.inl (by omega)),
      hB5, byteSlice_writeAt_disjoint B4 (leBytes 8 r) 104 0 8 (by omega) (Or.inl (by omega)),
      hB4, byteSlice_writeAt_disjoint B3 v 72 0 8 (by omega) (Or.inl (by omega)),
      hB3, byteSlice_writeAt_disjoint B2 a 40 0 8 (by omega) (Or.inl (by omega)),
      hB2, byteSlice_writeAt_disjoint B1 m 8 0 8 (by omega) (Or.inl (by omega)),
      hB1]
    have h := byteSlice_writeAt_self b (leBytes 8 s) 0 (by omega)
    rw [e1] at h
    exact h
  · rw [byteSlice_writeAt_disjoint B5 bp 112 8 32 (by omega) (Or.inl (by omega)),
      hB5, byteSlice_writeAt_disjoint B4 (leBytes 8 r) 104 8 32 (by omega) (Or.inl (by omega)),
      hB4, byteSlice_writeAt_disjoint B3 v 72 8 32 (by omega) (Or.inl (by omega)),
      hB3, byteSlice_writeAt_disjoint B2 a 40 8 32 (by omega) (Or.inl (by omega)),
      hB2]
    have h := byteSlice_writeAt_self B1 m 8 (by omega)
    rw [hm] at h
    exact h
  · rw [byteSlice_writeAt_disjoint B5 bp 112 40 32 (by omega) (Or.inl (by omega)),
      hB5, byteSlice_writeAt_disjoint B4 (leBytes 8 r) 104 40 32 (by omega) (Or.inl (by omega)),
      hB4, byteSlice_writeAt_disjoint B3 v 72 40 32 (by omega) (Or.inl (by omega)),
      hB3]
    have h := byteSlice_writeAt_self B2 a 40 (by omega)
    rw [ha] at h
    exact h
  · rw [byteSlice_writeAt_disjoint B5 bp 112 72 32 (by omega) (Or.inl (by omega)),
      hB5, byteSlice_writeAt_disjoint B4 (leBytes 8 r) 104 72 32 (by omega) (Or.inl (by omega)),
      hB4]
    have h := byteSlice_writeAt_self B3 v 72 (by omega)
    rw [hv] at h
    exact h
  · rw [byteSlice_writeAt_disjoint B5 bp 112 104 8 (by omega) (Or.inl (by omega)),
      hB5]
    have h := byteSlice_writeAt_self B4 (leBytes 8 r) 104 (by omega)
    rw [e2] at h
    exact h
  · have h := byteSlice_writeAt_self B5 bp 112 (by omega)
    rw [hbp] at h
    exact h

/-- Claim C1: `load` and `load_mut` succeed exactly on buffers of length 113,
returning the buffer itself regardless of contents, and on any other length
both fail with `InvalidAccountData` (the surfacing of the size mismatch). -/
theorem load_succeeds_iff_len_113 :
    ∀ bytes : List Nat,
      (Escrow.load bytes = .ok bytes ↔ bytes.length = 113)
    ∧ ((Escrow.load_mut bytes).1 = .ok bytes ↔ bytes.length = 113)
    ∧ (Escrow.load bytes = .error .InvalidAccountData ↔ bytes.length ≠ 113)
    ∧ ((Escrow.load_mut bytes).1 = .error .InvalidAccountData ↔
        bytes.length ≠ 113) := by
  intro bytes
  by_cases h : bytes.length = 113
  · simp [Escrow.load, Escrow.load_mut, escrow_len_val, h]
  · simp [Escrow.load, Escrow.load_mut, escrow_len_val, h]

/-- Claim C1 witness: concrete buffers of lengths 113, 0, 112 and 114. -/
theorem load_succeeds_iff_len_113_witness :
    Escrow.load (List.replicate 113 0) = .ok (List.replicate 113 0)
  ∧ (Escrow.load_mut (List.replicate 113 7)).1 = .ok (List.replicate 113 7)
  ∧ Escrow.load [] = .error .InvalidAccountData
  ∧ Escrow.load (List.replicate 112 0) = .error .InvalidAccountData
  ∧ (Escrow.load_mut (List.replicate 114 0)).1 = .error .InvalidAccountData :=
  ⟨(load_succeeds_iff_len_113 (List.replicate 113 0)).1.mpr (by simp),
   (load_succeeds_iff_len_113 (List.replicate 113 7)).2.1.mpr (by simp),
   (load_succeeds_iff_len_113 []).2.2.1.mpr (by simp),
   (load_succeeds_iff_len_113 (List.replicate 112 0)).2.2.1.mpr (by simp),
   (load_succeeds_iff_len_113 (List.replicate 114 0)).2.2.2.mpr (by simp)⟩

/-- Claim C4: `Escrow::LEN` is the constant 113, the exact sum of the six
field widths 8 + 32 + 32 + 32 + 8 + 1; it is a plain `Nat` constant, so its
evaluation is pure, with no side effects and no failure mode. -/
theorem len_is_113_sum_of_widths :
    Escrow.LEN = 113
  ∧ Escrow.LEN = Escrow.size_of_u64 + Escrow.size_of_pubkey
      + Escrow.size_of_pubkey + Escrow.size_of_pubkey
      + Escrow.size_of_u64 + Escrow.size_of_u8x1
  ∧ Escrow.LEN = 8 + 32 + 32 + 32 + 8 + 1 :=
  ⟨rfl, rfl, rfl⟩

/-- Claim C5 counterexample: the `#[repr(C)]` struct `Escrow` has in-memory
size 120, not 113 — its alignment is 8 (from the `u64` fields), so the C
layout algorithm appends 7 bytes of trailing padding after `bump`. -/
theorem escrow_size_of_is_not_113 :
    escrowSizeOf = 120 ∧ escrowSizeOf ≠ 113 ∧ escrowFieldWidthSum = 113 := by
  refine ⟨rfl, ?_, rfl⟩
  decide

/-- Claim C5 amended: the `#[repr(C)]` layout of `Escrow` places the fields in
declared order at offsets 0, 8, 40, 72, 104, 112 with no padding between
fields, and the sum of the field widths is 113, equal to `Escrow::LEN`; but
the struct's in-memory size (`size_of::<Escrow>()`) is 120, not 113, because
the struct alignment of 8 forces 7 bytes of trailing padding. -/
theorem escrow_layout_gapless_but_padded :
    escrowOffsets = [0, 8, 40, 72, 104, 112]
  ∧ cFieldsEnd 0 escrowFields = 113
  ∧ escrowFieldWidthSum = 113
  ∧ Escrow.LEN = escrowFieldWidthSum
  ∧ cStructAlign escrowFields = 8
  ∧ escrowSizeOf = 120 :=
  ⟨rfl, rfl, rfl, rfl, rfl, rfl⟩

/-- Claim C7: `set_inner` is equivalent to calling the six per-field setters
in layout order (`set_seed`, `set_maker`, `set_mint_a`, `set_mint_b`,
`set_receive`, `set_bump`): for every starting buffer and every tuple of
field values the final buffer is identical. -/
theorem set_inner_eq_setter_sequence :
    ∀ (b : List Nat) (s : Nat) (m a v : List Nat) (r : Nat) (bp : List Nat),
      Escrow.set_inner b s m a v r bp =
        Escrow.set_bump (Escrow.set_receive (Escrow.set_mint_b
          (Escrow.set_mint_a (Escrow.set_maker (Escrow.set_seed b s) m) a)
            v) r) bp := by
  intro b s m a v r bp
  rfl

/-- Claim C9: `load` never mutates the buffer — it has no write effect and on
success returns the buffer itself unchanged — and `load_mut`, in particular
when it fails with `InvalidAccountData`, leaves every byte of the buffer
unchanged (its second component is the buffer after the call). -/
theorem load_does_not_mutate :
    ∀ bytes h : List Nat,
      (Escrow.load_mut bytes).2 = bytes
    ∧ (Escrow.load bytes = .ok h → h = bytes)
    ∧ ((Escrow.load_mut bytes).1 = .error .InvalidAccountData →
        (Escrow.load_mut bytes).2 = bytes) := by
  intro bytes h
  refine ⟨?_, ?_, fun _ => ?_⟩
  · unfold Escrow.load_mut
    by_cases hl : bytes.length = Escrow.LEN
    · rw [if_pos hl]
    · rw [if_neg hl]
  · intro hok
    unfold Escrow.load at hok
    by_cases hl : bytes.length = Escrow.LEN
    · rw [if_pos hl] at hok
      injection hok with e
      exact e.symm
    · rw [if_neg hl] at hok
      exact absurd hok (by simp)
  · unfold Escrow.load_mut
    by_cases hl : bytes.length = Escrow.LEN
    · rw [if_pos hl]
    · rw [if_neg hl]

/-- Claim C9 witness: a wrong-length buffer is left byte-for-byte unchanged
by the failing `load_mut`, and a 113-byte buffer is returned unchanged by
`load`. -/
theorem load_does_not_mutate_witness :
    (Escrow.load_mut (List.replicate 7 9)).2 = List.replicate 7 9
  ∧ ((List.replicate 113 5) = List.replicate 113 5) :=
  ⟨(load_does_not_mutate (List.replicate 7 9) []).1,
   (load_does_not_mutate (List.replicate 113 5) (List.replicate 113 5)).2.1
     (by rfl)⟩

/-- Claim C2: round trip — initializing a 113-byte buffer via `set_inner`
with width-correct field values and then viewing it read-only via `load`
succeeds and yields back exactly the same six field values. -/
theorem set_inner_load_roundtrip (b m a v bp : List Nat) (s r : Nat)
    (hb : b.length = 113) (hs : s < 2 ^ 64) (hr : r < 2 ^ 64)
    (hm : m.length = 32) (ha : a.length = 32) (hv : v.length = 32)
    (hbp : bp.length = 1) :
    Escrow.load (Escrow.set_inner b s m a v r bp) =
      .ok (Escrow.set_inner b s m a v r bp)
  ∧ Escrow.seed (Escrow.set_inner b s m a v r bp) = s
  ∧ Escrow.maker (Escrow.set_inner b s m a v r bp) = m
  ∧ Escrow.mint_a (Escrow.set_inner b s m a v r bp) = a
  ∧ Escrow.mint_b (Escrow.set_inner b s m a v r bp) = v
  ∧ Escrow.receive (Escrow.set_inner b s m a v r bp) = r
  ∧ Escrow.bump (Escrow.set_inner b s m a v r bp) = bp := by
  obtain ⟨hlen, h0, h8, h40, h72, h104, h112⟩ :=
    set_inner_spec b m a v bp s r hb hm ha hv hbp
  have hpow : (256 : Nat) ^ 8 = 2 ^ 64 := by norm_num
  refine ⟨?_, ?_, ?_, ?_, ?_, ?_, ?_⟩
  · unfold Escrow.load
    rw [if_pos (by rw [hlen, escrow_len_val])]
  · unfold Escrow.seed Escrow.seed_bytes
    rw [h0, leFromBytes_leBytes, hpow, Nat.mod_eq_of_lt hs]
  · unfold Escrow.maker Escrow.maker_bytes
    exact h8
  · unfold Escrow.mint_a Escrow.mint_a_bytes
    exact h40
  · unfold Escrow.mint_b Escrow.mint_b_bytes
    exact h72
  · unfold Escrow.receive Escrow.receive_bytes
    rw [h104, leFromBytes_leBytes, hpow, Nat.mod_eq_of_lt hr]
  · unfold Escrow.bump Escrow.bump_bytes
    exact h112

/-- Claim C2 witness: the round trip at a concrete zeroed buffer and concrete
field values. -/
theorem set_inner_load_roundtrip_witness :
    Escrow.seed (Escrow.set_inner (List.replicate 113 0) 42
      (List.replicate 32 1) (List.replicate 32 2) (List.replicate 32 3)
      1000 [7]) = 42
  ∧ Escrow.maker (Escrow.set_inner (List.replicate 113 0) 42
      (List.replicate 32 1) (List.replicate 32 2) (List.replicate 32 3)
      1000 [7]) = List.replicate 32 1
  ∧ Escrow.receive (Escrow.set_inner (List.replicate 113 0) 42
      (List.replicate 32 1) (List.replicate 32 2) (List.replicate 32 3)
      1000 [7]) = 1000
  ∧ Escrow.bump (Escrow.set_inner (List.replicate 113 0) 42
      (List.replicate 32 1) (List.replicate 32 2) (List.replicate 32 3)
      1000 [7]) = [7] := by
  have h := set_inner_load_roundtrip (List.replicate 113 0)
    (List.replicate 32 1) (List.replicate 32 2) (List.replicate 32 3) [7]
    42 1000 (by simp) (by decide) (by decide) (by simp) (by simp) (by simp)
    rfl
  exact ⟨h.2.1, h.2.2.1, h.2.2.2.2.2.1, h.2.2.2.2.2.2⟩

/-- Claim C3: on a buffer of 113 zero bytes,
`set_inner(seed=42, maker=0x01*32, mint_a=0x02*32, mint_b=0x03*32,
receive=1000, bump=[7])` leaves bytes 0-7 = little-endian 42, bytes 8-39 all
0x01, bytes 40-71 all 0x02, bytes 72-103 all 0x03, bytes 104-111 =
little-endian 1000, byte 112 = 7: the fields land exactly at offsets 0, 8,
40, 72, 104, 112 with no spillover. -/
theorem set_inner_concrete_offsets :
    byteSlice (Escrow.set_inner (List.replicate 113 0) 42
      (List.replicate 32 1) (List.replicate 32 2) (List.replicate 32 3)
      1000 [7]) 0 8 = [42, 0, 0, 0, 0, 0, 0, 0]
  ∧ byteSlice (Escrow.set_inner (List.replicate 113 0) 42
      (List.replicate 32 1) (List.replicate 32 2) (List.replicate 32 3)
      1000 [7]) 8 32 = List.replicate 32 1
  ∧ byteSlice (Escrow.set_inner (List.replicate 113 0) 42
      (List.replicate 32 1) (List.replicate 32 2) (List.replicate 32 3)
      1000 [7]) 40 32 = List.replicate 32 2
  ∧ byteSlice (Escrow.set_inner (List.replicate 113 0) 42
      (List.replicate 32 1) (List.replicate 32 2) (List.replicate 32 3)
      1000 [7]) 72 32 = List.replicate 32 3
  ∧ byteSlice (Escrow.set_inner (List.replicate 113 0) 42
      (List.replicate 32 1) (List.replicate 32 2) (List.replicate 32 3)
      1000 [7]) 104 8 = [232, 3, 0, 0, 0, 0, 0, 0]
  ∧ byteSlice (Escrow.set_inner (List.replicate 113 0) 42
      (List.replicate 32 1) (List.replicate 32 2) (List.replicate 32 3)
      1000 [7]) 112 1 = [7] := by
  decide

/-- Claim C6: independence of fields — on a 113-byte buffer, each of the six
per-field setters, given a value of the correct width, leaves the stored
bytes of the other five fields unchanged. -/
theorem setters_preserve_other_fields (b : List Nat) (hb : b.length = 113) :
    (∀ s : Nat,
        Escrow.maker_bytes (Escrow.set_seed b s) = Escrow.maker_bytes b
      ∧ Escrow.mint_a_bytes (Escrow.set_seed b s) = Escrow.mint_a_bytes b
      ∧ Escrow.mint_b_bytes (Escrow.set_seed b s) = Escrow.mint_b_bytes b
      ∧ Escrow.receive_bytes (Escrow.set_seed b s) = Escrow.receive_bytes b
      ∧ Escrow.bump_bytes (Escrow.set_seed b s) = Escrow.bump_bytes b)
  ∧ (∀ m : List Nat, m.length = 32 →
        Escrow.seed_bytes (Escrow.set_maker b m) = Escrow.seed_bytes b
      ∧ Escrow.mint_a_bytes (Escrow.set_maker b m) = Escrow.mint_a_bytes b
      ∧ Escrow.mint_b_bytes (Escrow.set_maker b m) = Escrow.mint_b_bytes b
      ∧ Escrow.receive_bytes (Escrow.set_maker b m) = Escrow.receive_bytes b
      ∧ Escrow.bump_bytes (Escrow.set_maker b m) = Escrow.bump_bytes b)
  ∧ (∀ a : List Nat, a.length = 32 →
        Escrow.seed_bytes (Escrow.set_mint_a b a) = Escrow.seed_bytes b
      ∧ Escrow.maker_bytes (Escrow.set_mint_a b a) = Escrow.maker_bytes b
      ∧ Escrow.mint_b_bytes (Escrow.set_mint_a b a) = Escrow.mint_b_bytes b
      ∧ Escrow.receive_bytes (Escrow.set_mint_a b a) = Escrow.receive_bytes b
      ∧ Escrow.bump_bytes (Escrow.set_mint_a b a) = Escrow.bump_bytes b)
  ∧ (∀ v : List Nat, v.length = 32 →
        Escrow.seed_bytes (Escrow.set_mint_b b v) = Escrow.seed_bytes b
      ∧ Escrow.maker_bytes (Escrow.set_mint_b b v) = Escrow.maker_bytes b
      ∧ Escrow.mint_a_bytes (Escrow.set_mint_b b v) = Escrow.mint_a_bytes b
      ∧ Escrow.receive_bytes (Escrow.set_mint_b b v) = Escrow.receive_bytes b
      ∧ Escrow.bump_bytes (Escrow.set_mint_b b v) = Escrow.bump_bytes b)
  ∧ (∀ r : Nat,
        Escrow.seed_bytes (Escrow.set_receive b r) = Escrow.seed_bytes b
      ∧ Escrow.maker_bytes (Escrow.set_receive b r) = Escrow.maker_bytes b
      ∧ Escrow.mint_a_bytes (Escrow.set_receive b r) = Escrow.mint_a_bytes b
      ∧ Escrow.mint_b_bytes (Escrow.set_receive b r) = Escrow.mint_b_bytes b
      ∧ Escrow.bump_bytes (Escrow.set_receive b r) = Escrow.bump_bytes b)
  ∧ (∀ bp : List Nat, bp.length = 1 →
        Escrow.seed_bytes (Escrow.set_bump b bp) = Escrow.seed_bytes b
      ∧ Escrow.maker_bytes (Escrow.set_bump b bp) = Escrow.maker_bytes b
      ∧ Escrow.mint_a_bytes (Escrow.set_bump b bp) = Escrow.mint_a_bytes b
      ∧ Escrow.mint_b_bytes (Escrow.set_bump b bp) = Escrow.mint_b_bytes b
      ∧ Escrow.receive_bytes (Escrow.set_bump b bp) = Escrow.receive_bytes b)
    := by
  refine ⟨fun s => ?_, fun m hm => ?_, fun a ha => ?_, fun v hv => ?_,
    fun r => ?_, fun bp hbp => ?_⟩
  · have e := leBytes_length 8 s
    simp only [Escrow.set_seed, Escrow.maker_bytes, Escrow.mint_a_bytes,
      Escrow.mint_b_bytes, Escrow.receive_bytes, Escrow.bump_bytes]
    exact ⟨byteSlice_writeAt_disjoint b (leBytes 8 s) 0 8 32 (by omega) (by omega),
      byteSlice_writeAt_disjoint b (leBytes 8 s) 0 40 32 (by omega) (by omega),
      byteSlice_writeAt_disjoint b (leBytes 8 s) 0 72 32 (by omega) (by omega),
      byteSlice_writeAt_disjoint b (leBytes 8 s) 0 104 8 (by omega) (by omega),
      byteSlice_writeAt_disjoint b (leBytes 8 s) 0 112 1 (by omega) (by omega)⟩
  · simp only [Escrow.set_maker, Escrow.seed_bytes, Escrow.mint_a_bytes,
      Escrow.mint_b_bytes, Escrow.receive_bytes, Escrow.bump_bytes]
    exact ⟨byteSlice_writeAt_disjoint b m 8 0 8 (by omega) (by omega),
      byteSlice_writeAt_disjoint b m 8 40 32 (by omega) (by omega),
      byteSlice_writeAt_disjoint b m 8 72 32 (by omega) (by omega),
      byteSlice_writeAt_disjoint b m 8 104 8 (by omega) (by omega),
      byteSlice_writeAt_disjoint b m 8 112 1 (by omega) (by omega)⟩
  · simp only [Escrow.set_mint_a, Escrow.seed_bytes, Escrow.maker_bytes,
      Escrow.mint_b_bytes, Escrow.receive_bytes, Escrow.bump_bytes]
    exact ⟨byteSlice_writeAt_disjoint b a 40 0 8 (by omega) (by omega),
      byteSlice_writeAt_disjoint b a 40 8 32 (by omega) (by omega),
      byteSlice_writeAt_disjoint b a 40 72 32 (by omega) (by omega),
      byteSlice_writeAt_disjoint b a 40 104 8 (by omega) (by omega),
      byteSlice_writeAt_disjoint b a 40 112 1 (by omega) (by omega)⟩
  · simp only [Escrow.set_mint_b, Escrow.seed_bytes, Escrow.maker_bytes,
      Escrow.mint_a_bytes, Escrow.receive_bytes, Escrow.bump_bytes]
    exact ⟨byteSlice_writeAt_disjoint b v 72 0 8 (by omega) (by omega),
      byteSlice_writeAt_disjoint b v 72 8 32 (by omega) (by omega),
      byteSlice_writeAt_disjoint b v 72 40 32 (by omega) (by omega),
      byteSlice_writeAt_disjoint b v 72 104 8 (by omega) (by omega),
      byteSlice_writeAt_disjoint b v 72 112 1 (by omega) (by omega)⟩
  · have e := leBytes_length 8 r
    simp only [Escrow.set_receive, Escrow.seed_bytes, Escrow.maker_bytes,
      Escrow.mint_a_bytes, Escrow.mint_b_bytes, Escrow.bump_bytes]
    exact ⟨byteSlice_writeAt_disjoint b (leBytes 8 r) 104 0 8 (by omega) (by omega),
      byteSlice_writeAt_disjoint b (leBytes 8 r) 104 8 32 (by omega) (by omega),
      byteSlice_writeAt_disjoint b (leBytes 8 r) 104 40 32 (by omega) (by omega),
      byteSlice_writeAt_disjoint b (leBytes 8 r) 104 72 32 (by omega) (by omega),
      byteSlice_writeAt_disjoint b (leBytes 8 r) 104 112 1 (by omega) (by omega)⟩
  · simp only [Escrow.set_bump, Escrow.seed_bytes, Escrow.maker_bytes,
      Escrow.mint_a_bytes, Escrow.mint_b_bytes, Escrow.receive_bytes]
    exact ⟨byteSlice_writeAt_disjoint b bp 112 0 8 (by omega) (by omega),
      byteSlice_writeAt_disjoint b bp 112 8 32 (by omega) (by omega),
      byteSlice_writeAt_disjoint b bp 112 40 32 (by omega) (by omega),
      byteSlice_writeAt_disjoint b bp 112 72 32 (by omega) (by omega),
      byteSlice_writeAt_disjoint b bp 112 104 8 (by omega) (by omega)⟩

/-- Claim C6 witness: frame property at a concrete buffer, for a `u64` setter
and a byte-array setter. -/
theorem setters_preserve_other_fields_witness :
    Escrow.maker_bytes (Escrow.set_seed (List.replicate 113 0) 42) =
      Escrow.maker_bytes (List.replicate 113 0)
  ∧ Escrow.seed_bytes (Escrow.set_bump (List.replicate 113 0) [7]) =
      Escrow.seed_bytes (List.replicate 113 0) := by
  have h := setters_preserve_other_fields (List.replicate 113 0) (by simp)
  exact ⟨(h.1 42).1, (h.2.2.2.2.2 [7] rfl).1⟩

/-- Claim C8: idempotence — on a 113-byte buffer, calling any of the six
setters twice with the same width-correct value leaves the buffer
byte-identical to calling it once. -/
theorem setters_idempotent (b : List Nat) (hb : b.length = 113) :
    (∀ s : Nat,
      Escrow.set_seed (Escrow.set_seed b s) s = Escrow.set_seed b s)
  ∧ (∀ m : List Nat, m.length = 32 →
      Escrow.set_maker (Escrow.set_maker b m) m = Escrow.set_maker b m)
  ∧ (∀ a : List Nat, a.length = 32 →
      Escrow.set_mint_a (Escrow.set_mint_a b a) a = Escrow.set_mint_a b a)
  ∧ (∀ v : List Nat, v.length = 32 →
      Escrow.set_mint_b (Escrow.set_mint_b b v) v = Escrow.set_mint_b b v)
  ∧ (∀ r : Nat,
      Escrow.set_receive (Escrow.set_receive b r) r = Escrow.set_receive b r)
  ∧ (∀ bp : List Nat, bp.length = 1 →
      Escrow.set_bump (Escrow.set_bump b bp) bp = Escrow.set_bump b bp) := by
  refine ⟨fun s => ?_, fun m hm => ?_, fun a ha => ?_, fun v hv => ?_,
    fun r => ?_, fun bp hbp => ?_⟩
  · have e := leBytes_length 8 s
    simp only [Escrow.set_seed]
    exact writeAt_writeAt b (leBytes 8 s) (leBytes 8 s) 0 (by omega) rfl
  · simp only [Escrow.set_maker]
    exact writeAt_writeAt b m m 8 (by omega) rfl
  · simp only [Escrow.set_mint_a]
    exact writeAt_writeAt b a a 40 (by omega) rfl
  · simp only [Escrow.set_mint_b]
    exact writeAt_writeAt b v v 72 (by omega) rfl
  · have e := leBytes_length 8 r
    simp only [Escrow.set_receive]
    exact writeAt_writeAt b (leBytes 8 r) (leBytes 8 r) 104 (by omega) rfl
  · simp only [Escrow.set_bump]
    exact writeAt_writeAt b bp bp 112 (by omega) rfl

/-- Claim C8 witness: idempotence at a concrete buffer and concrete values. -/
theorem setters_idempotent_witness :
    Escrow.set_seed (Escrow.set_seed (List.replicate 113 0) 42) 42 =
      Escrow.set_seed (List.replicate 113 0) 42
  ∧ Escrow.set_bump (Escrow.set_bump (List.replicate 113 0) [7]) [7] =
      Escrow.set_bump (List.replicate 113 0) [7] := by
  have h := setters_idempotent (List.replicate 113 0) (by simp)
  exact ⟨h.1 42, h.2.2.2.2.2 [7] rfl⟩

/-- Claim C10: on any buffer accepted by both views, the read-only handle
returned by `load` and the mutable handle returned by `load_mut` decode
identical values for all six fields. -/
theorem views_decode_identically (b h1 h2 : List Nat)
    (hl : Escrow.load b = .ok h1) (hlm : (Escrow.load_mut b).1 = .ok h2) :
    Escrow.seed h1 = Escrow.seed h2
  ∧ Escrow.maker h1 = Escrow.maker h2
  ∧ Escrow.mint_a h1 = Escrow.mint_a h2
  ∧ Escrow.mint_b h1 = Escrow.mint_b h2
  ∧ Escrow.receive h1 = Escrow.receive h2
  ∧ Escrow.bump h1 = Escrow.bump h2 := by
  unfold Escrow.load at hl
  unfold Escrow.load_mut at hlm
  by_cases hc : b.length = Escrow.LEN
  · rw [if_pos hc] at hl hlm
    injection hl with e1
    injection hlm with e2
    rw [← e1, ← e2]
    exact ⟨rfl, rfl, rfl, rfl, rfl, rfl⟩
  · rw [if_neg hc] at hl
    exact absurd hl (by simp)

/-- Claim C10 witness: both views of a concrete 113-byte buffer decode the
same `seed` and `bump`. -/
theorem views_decode_identically_witness :
    Escrow.seed (List.replicate 113 0) = Escrow.seed (List.replicate 113 0)
  ∧ Escrow.bump (List.replicate 113 0) = Escrow.bump (List.replicate 113 0) := by
  have h := views_decode_identically (List.replicate 113 0)
    (List.replicate 113 0) (List.replicate 113 0) rfl rfl
  exact ⟨h.1, h.2.2.2.2.2⟩
